import Mathlib

/-!
Verification development for the schoology-calendar repository.

The definitions below are a shallow embedding of the reconciliation and
normalization engine: the ICS parser dispatch logic
(`IcsParserService.parseIcsFile`, `detectEventType`, `determineEventStatus`
in storage.service.ts), the file-import flow
(`ImportComponent.processFiles` together with `StorageService.addEvents`,
which is a Dexie `bulkPut`), the scrape reconciliation
(`SyncService.processScrapedData`, `generateEventKey`), the scraper's
inline event-type classification (schoology-scraper.js), and the course
filter toggle (`EventManagerService.toggleCourseFilter`).

Dates are modelled as `Int` millisecond timestamps.  External library
behaviour (ical.js, `Date.prototype.toISOString`) is abstracted: a
document is given to the parser as the outcome of `ICAL.parse` (either a
document-level failure or a list of entries, each entry either
transformable or throwing), and `dateToIso` is an abstraction of
`toISOString` that keeps the two facts the reconciliation code can
observe through string comparison of keys: it is injective and its output
always ends with the character Z (a real ISO-8601 UTC string), so it is
never equal to the literal text "undefined".
-/

namespace SchoologyCal

/-- Event types from calendar-event.model.ts. -/
inductive EventType
  | assignment
  | exam
  | quiz
  | project
  | other
  deriving DecidableEq, Repr

/-- Event statuses from calendar-event.model.ts. -/
inductive EventStatus
  | upcoming
  | overdue
  | completed
  deriving DecidableEq, Repr

/-- Recurrence rule from calendar-event.model.ts (`until` is optional). -/
structure RecurrenceRule where
  frequency : String
  interval : Nat
  untilDate : Option Int
  deriving DecidableEq, Repr

/-- Stored event record (CalendarEvent in calendar-event.model.ts).  Note:
a stored event has `startDate`/`endDate` fields and NO `dueDate` field;
`rawIcsData` is a debug payload and is not modelled. -/
structure CalendarEvent where
  id : String
  title : String
  description : String
  startDate : Int
  endDate : Int
  eventType : EventType
  courseId : String
  courseName : String
  courseColor : String
  location : Option String
  status : EventStatus
  isAllDay : Bool
  recurrence : Option RecurrenceRule
  deriving DecidableEq, Repr

/-- Stored course record (course.model.ts). -/
structure Course where
  id : String
  name : String
  color : String
  isActive : Bool
  importedDate : Int
  eventCount : Nat
  icsFileName : String
  deriving DecidableEq, Repr

/-- The two Dexie tables of AppDatabase (storage.service.ts). -/
structure Store where
  events : List CalendarEvent
  courses : List Course
  deriving DecidableEq, Repr

/-- Ids of a list of stored events. -/
def eventIds (evs : List CalendarEvent) : List String :=
  evs.map (fun e => e.id)

/-! ## Event Classifier -/

/-- Whether the character list `pat` occurs contiguously inside `s`
(JavaScript `String.prototype.includes`), leading-match test inlined. -/
def charsStartWith : List Char → List Char → Bool
  | [], _ => true
  | _ :: _, [] => false
  | p :: ps, c :: cs => p = c && charsStartWith ps cs

/-- Recursion for the substring test. -/
def charsContain : List Char → List Char → Bool
  | [], pat => pat.isEmpty
  | c :: rest, pat => charsStartWith pat (c :: rest) || charsContain rest pat

/-- JavaScript `s.includes(pat)`. -/
def jsIncludes (s pat : String) : Bool :=
  charsContain s.data pat.data

/-- JavaScript `s.toLowerCase()` (ASCII-faithful). -/
def jsToLower (s : String) : String :=
  String.mk (s.data.map Char.toLower)

/-- IcsParserService.detectEventType (storage.service.ts lines 382..399):
keyword search over the lower-cased concatenation of summary and
description, in priority order. -/
def detectEventType (summary description : String) : EventType :=
  let text := jsToLower (summary ++ " " ++ description)
  if jsIncludes text "exam" || jsIncludes text "test" ||
     jsIncludes text "midterm" || jsIncludes text "final" then .exam
  else if jsIncludes text "quiz" then .quiz
  else if jsIncludes text "project" then .project
  else if jsIncludes text "assignment" || jsIncludes text "homework" ||
          jsIncludes text "hw" then .assignment
  else .other

/-- IcsParserService.determineEventStatus (storage.service.ts lines
404..409): strict comparison of endDate with now. -/
def determineEventStatus (endDate now : Int) : EventStatus :=
  if endDate < now then .overdue else .upcoming

/-- The scraper's inline event-type computation (schoology-scraper.js lines
211..213): title only, `exam`/`test` then `quiz` then `project`, and
`assignment` as the default. -/
def scrapeEventType (title : String) : EventType :=
  let t := jsToLower title
  if jsIncludes t "exam" || jsIncludes t "test" then .exam
  else if jsIncludes t "quiz" then .quiz
  else if jsIncludes t "project" then .project
  else .assignment

/-- Modelled from the spec: `classifyType(title, description)` of section
4.2 — lower-cases the concatenation of title and description and matches,
in priority order, the keyword sets {exam, test, midterm, final} to exam,
{quiz} to quiz, {project} to project, {assignment, homework, hw} to
assignment, anything else to other.  Used only to compare the source's
classifiers against the spec's single classifier. -/
def classifyType (title description : String) : EventType :=
  let text := jsToLower (title ++ " " ++ description)
  if jsIncludes text "exam" || jsIncludes text "test" ||
     jsIncludes text "midterm" || jsIncludes text "final" then .exam
  else if jsIncludes text "quiz" then .quiz
  else if jsIncludes text "project" then .project
  else if jsIncludes text "assignment" || jsIncludes text "homework" ||
          jsIncludes text "hw" then .assignment
  else .other

/-! ## Reactive view: course filter -/

/-- EventManagerService.toggleCourseFilter (event-manager service, lines
186..193): `includes` is list membership, `filter(id !== courseId)`
removes every occurrence, otherwise the id is appended. -/
def toggleCourseFilter (active : List String) (courseId : String) : List String :=
  if courseId ∈ active then
    active.filter (fun id2 => decide (id2 ≠ courseId))
  else
    active ++ [courseId]

/-- EventManagerService.markEventCompleted: a Dexie `update(id, {status:
COMPLETED})`, i.e. the matching records get status completed. -/
def markEventCompleted (evs : List CalendarEvent) (id2 : String) : List CalendarEvent :=
  evs.map (fun e => if e.id = id2 then { e with status := .completed } else e)

/-! ## Calendar Text Parser -/

/-- One VEVENT as seen by transformToCalendarEvent after `new
ICAL.Event(vevent)` succeeded: the fields the transformation reads.
`none` in an Option field models a missing/falsy library value. -/
structure IcalEntry where
  uid : Option String
  summary : Option String
  description : Option String
  startDate : Int
  endDate : Int
  isDateOnly : Bool
  location : Option String
  rrule : Option RecurrenceRule
  deriving DecidableEq, Repr

/-- The outcome of `ICAL.parse` + component extraction on a document:
`none` when the library throws at the document level, otherwise the list
of vevents, each being `none` when entry conversion throws. -/
structure IcsDocument where
  parsed : Option (List (Option IcalEntry))
  deriving DecidableEq, Repr

/-- An import diagnostic (ics-import-result.model.ts). -/
structure ImportError where
  line : Option Nat
  message : String
  severity : String
  deriving DecidableEq, Repr

/-- Result of IcsParserService.parseIcsFile; the events list is attached
to the result object in the source. -/
structure IcsImportResult where
  success : Bool
  fileName : String
  courseId : String
  courseName : String
  eventsImported : Nat
  errors : List ImportError
  warnings : List String
  events : List CalendarEvent
  deriving DecidableEq, Repr

/-- JavaScript `x || dflt` for string-valued fields: a missing value or
the empty string falls back to the default. -/
def jsOr (s : Option String) (dflt : String) : String :=
  match s with
  | some v => if v = "" then dflt else v
  | none => dflt

/-- JavaScript `x || undefined` (empty strings collapse to undefined). -/
def jsOrUndef (s : Option String) : Option String :=
  match s with
  | some v => if v = "" then none else some v
  | none => none

/-- IcsParserService.transformToCalendarEvent (storage.service.ts lines
350..376). `genId` is the value generateUniqueId would produce for this
entry. -/
def transformToCalendarEvent (now : Int) (genId : String) (en : IcalEntry)
    (courseId courseName courseColor : String) : CalendarEvent :=
  { id := jsOr en.uid genId
    title := jsOr en.summary "Untitled Event"
    description := jsOr en.description ""
    startDate := en.startDate
    endDate := en.endDate
    eventType := detectEventType (jsOr en.summary "") (jsOr en.description "")
    courseId := courseId
    courseName := courseName
    courseColor := courseColor
    location := jsOrUndef en.location
    status := determineEventStatus en.endDate now
    isAllDay := en.isDateOnly
    recurrence := en.rrule }

/-- The vevents.forEach loop of parseIcsFile: at index `i`, a throwing
entry records an error with line `i + 1` and is skipped, a convertible
entry is pushed onto the events list. -/
def parseEntries (now : Int) (genId : Nat → String) (cid cn cc : String) :
    Nat → List (Option IcalEntry) → List CalendarEvent × List ImportError
  | _, [] => ([], [])
  | i, none :: rest =>
    ((parseEntries now genId cid cn cc (i + 1) rest).1,
      { line := some (i + 1), message := "Failed to parse event", severity := "error" }
        :: (parseEntries now genId cid cn cc (i + 1) rest).2)
  | i, some en :: rest =>
    (transformToCalendarEvent now (genId i) en cid cn cc
        :: (parseEntries now genId cid cn cc (i + 1) rest).1,
      (parseEntries now genId cid cn cc (i + 1) rest).2)

/-- IcsParserService.parseIcsFile (storage.service.ts lines 279..345). -/
def parseIcsFile (now : Int) (genId : Nat → String) (doc : IcsDocument)
    (courseId courseName courseColor fileName : String) : IcsImportResult :=
  match doc.parsed with
  | none =>
    { success := false
      fileName := fileName
      courseId := courseId
      courseName := courseName
      eventsImported := 0
      errors := [{ line := none, message := "Failed to parse ICS file", severity := "error" }]
      warnings := []
      events := [] }
  | some vevents =>
    { success := decide (0 < (parseEntries now genId courseId courseName courseColor 0 vevents).1.length)
      fileName := fileName
      courseId := courseId
      courseName := courseName
      eventsImported := (parseEntries now genId courseId courseName courseColor 0 vevents).1.length
      errors := (parseEntries now genId courseId courseName courseColor 0 vevents).2
      warnings := if vevents.length = 0 then ["No events found in ICS file"] else []
      events := (parseEntries now genId courseId courseName courseColor 0 vevents).1 }

/-- Zero-based positions of the entries whose conversion throws; used to
state the parser contract. -/
def nonePositions : Nat → List (Option IcalEntry) → List Nat
  | _, [] => []
  | i, none :: rest => i :: nonePositions (i + 1) rest
  | i, some _ :: rest => nonePositions (i + 1) rest

/-! ## Store adapter operations -/

/-- One step of Dexie `bulkPut`: an event whose primary key `id` already
exists replaces every record carrying that key, otherwise it is
appended. -/
def putEvent (evs : List CalendarEvent) (e : CalendarEvent) : List CalendarEvent :=
  if evs.any (fun x => x.id == e.id) then
    evs.map (fun x => if x.id = e.id then e else x)
  else
    evs ++ [e]

/-- StorageService.addEvents: `db.events.bulkPut(events)` — upsert of the
whole batch in order, never a deletion. -/
def bulkPutEvents (evs : List CalendarEvent) (batch : List CalendarEvent) : List CalendarEvent :=
  batch.foldl putEvent evs

/-- Dexie `table.add` for courses: fails (throws) when the primary key is
already present, otherwise appends. -/
def courseAdd (cs : List Course) (c : Course) : Option (List Course) :=
  if cs.any (fun x => x.id == c.id) then none else some (cs ++ [c])

/-- Dexie `table.add` for events. -/
def eventAdd (evs : List CalendarEvent) (e : CalendarEvent) : Option (List CalendarEvent) :=
  if evs.any (fun x => x.id == e.id) then none else some (evs ++ [e])

/-- Dexie `courses.update(id, {eventCount})`: merges the single field into
the record with that key; a missing key is a no-op. -/
def courseUpdate (cs : List Course) (id2 : String) (n : Nat) : List Course :=
  cs.map (fun x => if x.id = id2 then { x with eventCount := n } else x)

/-- Dexie `events.update(id, changes)` where `changes` carries every field
(sync-service.js line 207): full replacement of the record with that key;
a missing key is a no-op. -/
def eventUpdate (evs : List CalendarEvent) (id2 : String) (val : CalendarEvent) : List CalendarEvent :=
  evs.map (fun x => if x.id = id2 then val else x)

/-- Dexie `events.bulkDelete(ids)`. -/
def eventsBulkDelete (evs : List CalendarEvent) (ids : List String) : List CalendarEvent :=
  evs.filter (fun e => decide (e.id ∉ ids))

/-! ## File import (ImportComponent.processFiles) -/

/-- One selected file as it reaches step 1 of processFiles: its name, the
course name already extracted by extractCourseName, and the parse outcome
of its content. -/
structure ImportFile where
  name : String
  extractedName : String
  doc : IcsDocument
  deriving DecidableEq, Repr

/-- A successful per-file parse result as collected in step 2 of
processFiles. -/
structure ParsedImport where
  fileName : String
  courseId : String
  courseName : String
  courseColor : String
  events : List CalendarEvent
  deriving DecidableEq, Repr

/-- Step 1 of processFiles for one file (import.component.ts lines
492..538): a fresh courseId and courseColor are generated for the file,
the content is parsed, and only a successful result contributes events. -/
def importParseOne (now : Int) (genCid genCol : Nat → String) (genEid : Nat → Nat → String)
    (i : Nat) (f : ImportFile) : Option ParsedImport :=
  if (parseIcsFile now (genEid i) f.doc (genCid i) f.extractedName (genCol i) f.name).success then
    some { fileName := f.name
           courseId := genCid i
           courseName := f.extractedName
           courseColor := genCol i
           events := (parseIcsFile now (genEid i) f.doc (genCid i) f.extractedName (genCol i) f.name).events }
  else
    none

/-- The successful parse results of the whole selection, in order;
`i` numbers the files so that each gets its own generated identifiers. -/
def importParsedList (now : Int) (genCid genCol : Nat → String) (genEid : Nat → Nat → String) :
    Nat → List ImportFile → List ParsedImport
  | _, [] => []
  | i, f :: rest =>
    match importParseOne now genCid genCol genEid i f with
    | some p => p :: importParsedList now genCid genCol genEid (i + 1) rest
    | none => importParsedList now genCid genCol genEid (i + 1) rest

/-- The Course record built for one successfully parsed file (step 2
of import.component.ts, lines 550..558): eventCount is the number of parsed
events and the course is created fresh on every import. -/
def mkImportedCourse (now : Int) (p : ParsedImport) : Course :=
  { id := p.courseId
    name := p.courseName
    color := p.courseColor
    isActive := true
    importedDate := now
    eventCount := p.events.length
    icsFileName := p.fileName }

/-- The concatenation of all successfully parsed drafts (the `allEvents`
array of step 2). -/
def importDrafts (now : Int) (genCid genCol : Nat → String) (genEid : Nat → Nat → String)
    (files : List ImportFile) : List CalendarEvent :=
  (importParsedList now genCid genCol genEid 0 files).flatMap (fun p => p.events)

/-- The sequential `addCourse` loop of step 3: each add throws on a
duplicate key, which aborts the batch leaving the earlier adds committed;
the Bool records whether every add succeeded. -/
def coursesAddSeq : List Course → List Course → List Course × Bool
  | cs, [] => (cs, true)
  | cs, c :: rest =>
    if cs.any (fun x => x.id == c.id) then (cs, false)
    else coursesAddSeq (cs ++ [c]) rest

/-- Step 3 of processFiles (import.component.ts lines 581..590) applied to
the collected parse results: when no file parsed, nothing is written;
otherwise every fresh Course is added (an add that throws aborts the
batch with the earlier adds committed and the event write never issued),
then `addEvents` (bulkPut) of all drafts runs as one batch.  No deletion
is ever issued on this path. -/
def importApply (now : Int) (st : Store) (oks : List ParsedImport) : Store :=
  if oks = [] then st
  else if (coursesAddSeq st.courses (oks.map (mkImportedCourse now))).2 then
    { courses := (coursesAddSeq st.courses (oks.map (mkImportedCourse now))).1
      events := bulkPutEvents st.events (oks.flatMap (fun p => p.events)) }
  else
    { courses := (coursesAddSeq st.courses (oks.map (mkImportedCourse now))).1
      events := st.events }

/-- ImportComponent.processFiles, steps 1..3 (import.component.ts lines
487..605): parse every file, then apply the batched database writes. -/
def importFiles (now : Int) (genCid genCol : Nat → String) (genEid : Nat → Nat → String)
    (files : List ImportFile) (st : Store) : Store :=
  importApply now st (importParsedList now genCid genCol genEid 0 files)

/-! ## Scrape sync (SyncService.processScrapedData) -/

/-- One scraped event tuple as produced by SchoologyScraper
getCourseCalendar: a title, a description, a due instant (serialized with
toISOString), the course, and the scraper's own type classification. -/
structure ScrapedEvent where
  title : String
  description : String
  dueDate : Int
  courseId : String
  courseName : String
  eventType : EventType
  deriving DecidableEq, Repr

/-- One scraped course summary (id, name, number of scraped events). -/
structure ScrapedCourse where
  id : String
  name : String
  eventCount : Nat
  deriving DecidableEq, Repr

/-- Abstraction of `Date.prototype.toISOString` on a millisecond
timestamp: injective, and the output always ends with the character Z, so
it is never the text "undefined".  These are the only facts the key
comparisons below can observe. -/
def dateToIso (d : Int) : String :=
  toString d ++ "Z"

/-- SyncService.generateEventKey applied to a scraped draft, whose
`dueDate` field exists (sync-service.js lines 240..242). -/
def generateEventKeyDraft (e : ScrapedEvent) : String :=
  e.courseId ++ "-" ++ e.title ++ "-" ++ dateToIso e.dueDate

/-- SyncService.generateEventKey applied to a STORED CalendarEvent: the
record has no `dueDate` field (it carries startDate/endDate), so the
template literal interpolates the text "undefined". -/
def generateEventKeyStored (e : CalendarEvent) : String :=
  e.courseId ++ "-" ++ e.title ++ "-" ++ "undefined"

/-- `new Map(pairs)` lookup: later pairs overwrite earlier ones, so a get
finds the last pair with the key. -/
def mapOfList (l : List (String × String)) (k : String) : Option String :=
  (l.reverse.find? (fun p => p.1 == k)).map (fun p => p.2)

/-- `Array.from(map.values())` as a set of ids: one value per distinct
key, the value being the last one written for that key. -/
def mapValues (l : List (String × String)) : List String :=
  ((l.map (fun p => p.1)).dedup).filterMap (fun k => mapOfList l k)

/-- The color palette of sync-service.js lines 144..148. -/
def colorPalette : List String :=
  ["#FF6B6B", "#4ECDC4", "#45B7D1", "#FFA07A", "#98D8C8",
   "#6C5CE7", "#A29BFE", "#FD79A8", "#FDCB6E", "#E17055",
   "#74B9FF", "#A29BFE", "#00B894", "#00CEC9", "#FF7675"]

/-- The Course record added for a scraped course that is not yet stored
(sync-service.js lines 159..167); `i` is the position in the batch. -/
def mkSyncCourse (now : Int) (i : Nat) (c : ScrapedCourse) : Course :=
  { id := c.id
    name := c.name
    color := colorPalette.getD (i % colorPalette.length) ""
    isActive := true
    importedDate := now
    eventCount := c.eventCount
    icsFileName := "auto-sync" }

/-- The course loop of processScrapedData (lines 154..174):
`existingCourseIds` is computed once before the loop; a known id only has
its eventCount updated, a new id is added (Dexie add throws on an
in-batch duplicate, modelled as `none`). -/
def processCoursesLoop (now : Int) (existingIds : List String) :
    List Course → Nat → List ScrapedCourse → Option (List Course)
  | cs, _, [] => some cs
  | cs, i, c :: rest =>
    if existingIds.any (fun x => x == c.id) then
      processCoursesLoop now existingIds (courseUpdate cs c.id c.eventCount) (i + 1) rest
    else
      match courseAdd cs (mkSyncCourse now i c) with
      | none => none
      | some cs2 => processCoursesLoop now existingIds cs2 (i + 1) rest

/-- The calendarEvent object built for one scraped draft (sync-service.js
lines 188..203): startDate and endDate are both the due instant, status
is recomputed from the due instant against now, the event is all-day, and
courseColor is a random palette pick. -/
def mkSyncEvent (now : Int) (id2 : String) (ev : ScrapedEvent) (color : String) : CalendarEvent :=
  { id := id2
    title := ev.title
    description := ev.description
    startDate := ev.dueDate
    endDate := ev.dueDate
    eventType := ev.eventType
    courseId := ev.courseId
    courseName := ev.courseName
    courseColor := color
    location := some ""
    status := if ev.dueDate < now then .overdue else .upcoming
    isAllDay := true
    recurrence := none }

/-- The event loop of processScrapedData (lines 184..214): each draft's
key is looked up in the map built from the stored events; a hit updates
that record in place and marks its id seen, a miss adds the draft under a
freshly generated id (Dexie add throws on a key collision, modelled as
`none`).  `n` counts the iterations for the id / random-color supplies. -/
def processEventsLoop (now : Int) (genId : Nat → String) (rand : Nat → Nat)
    (emap : String → Option String) :
    List CalendarEvent → List String → Nat → List ScrapedEvent →
    Option (List CalendarEvent × List String)
  | evs, seen, _, [] => some (evs, seen)
  | evs, seen, n, ev :: rest =>
    match emap (generateEventKeyDraft ev) with
    | some exId =>
      processEventsLoop now genId rand emap
        (eventUpdate evs exId
          (mkSyncEvent now exId ev (colorPalette.getD (rand n % colorPalette.length) "")))
        (seen ++ [exId]) (n + 1) rest
    | none =>
      match eventAdd evs
          (mkSyncEvent now (genId n) ev (colorPalette.getD (rand n % colorPalette.length) "")) with
      | none => none
      | some evs2 =>
        processEventsLoop now genId rand emap evs2 (seen ++ [genId n]) (n + 1) rest

/-- The key map base list (sync-service.js line 179): every STORED event
paired with its generated key and its id, in table order. -/
def storedKeyList (evs : List CalendarEvent) : List (String × String) :=
  evs.map (fun e => (generateEventKeyStored e, e.id))

/-- The deletion phase (sync-service.js lines 216..221) followed by the
final store: every id in the key map that was not seen is bulk-deleted. -/
def scrapeApplyDelete (emapList : List (String × String))
    (r : List CalendarEvent × List String) (courses2 : List Course) : Store :=
  { events := eventsBulkDelete r.1 ((mapValues emapList).filter (fun id2 => decide (id2 ∉ r.2)))
    courses := courses2 }

/-- SyncService.processScrapedData (sync-service.js lines 125..235):
course upserts, then the event loop over the key map of ALL stored
events, then deletion of every map id that was not seen.  `genId` is the
supply of generateUniqueId values and `rand` the supply of random palette
indices; `none` models a thrown Dexie add. -/
def processScrapedData (now : Int) (genId : Nat → String) (rand : Nat → Nat)
    (scs : List ScrapedCourse) (drafts : List ScrapedEvent) (st : Store) : Option Store :=
  match processCoursesLoop now (st.courses.map (fun c => c.id)) st.courses 0 scs with
  | none => none
  | some courses2 =>
    match processEventsLoop now genId rand (mapOfList (storedKeyList st.events)) st.events [] 0 drafts with
    | none => none
    | some r => some (scrapeApplyDelete (storedKeyList st.events) r courses2)

/-! ## Concrete scenarios used by counterexamples and witnesses -/

/-- Identifier supplies standing for the Date.now/random based generators:
each run of the application code produces fresh, run-specific values. -/
def exGenCidA (i : Nat) : String := "cA" ++ toString i

def exGenCidB (i : Nat) : String := "cB" ++ toString i

def exGenCol (i : Nat) : String := "#11111" ++ toString i

def exGenEidA (i n : Nat) : String := "eA" ++ toString i ++ "x" ++ toString n

def exGenEidB (i n : Nat) : String := "eB" ++ toString i ++ "x" ++ toString n

def exSyncIdA (n : Nat) : String := "sA" ++ toString n

def exSyncIdB (n : Nat) : String := "sB" ++ toString n

def exRand (n : Nat) : Nat := n

/-- A placeholder record used only as the default of `List.headD`. -/
def exDummyEvent : CalendarEvent :=
  { id := "", title := "", description := "", startDate := 0, endDate := 0,
    eventType := .other, courseId := "", courseName := "", courseColor := "",
    location := none, status := .upcoming, isAllDay := false, recurrence := none }

/-- An ICS entry with a document UID, as exported calendars provide. -/
def exEntryEssay : IcalEntry :=
  { uid := some "u1", summary := some "Essay", description := none,
    startDate := 100, endDate := 100, isDateOnly := true, location := none, rrule := none }

/-- A second ICS entry with a document UID. -/
def exEntryHw : IcalEntry :=
  { uid := some "v1", summary := some "HW 1", description := none,
    startDate := 100, endDate := 100, isDateOnly := true, location := none, rrule := none }

def exFileMath : ImportFile :=
  { name := "math.ics", extractedName := "Math", doc := ⟨some [some exEntryEssay]⟩ }

def exFileHw : ImportFile :=
  { name := "hw.ics", extractedName := "Hw", doc := ⟨some [some exEntryHw]⟩ }

/-- The store after a first import of math.ics at time 50. -/
def exImportedOnce : Store :=
  importFiles 50 exGenCidA exGenCol exGenEidA [exFileMath] { events := [], courses := [] }

/-- The same store after the user marks the imported event completed. -/
def exCompletedStore : Store :=
  { exImportedOnce with events := markEventCompleted exImportedOnce.events "u1" }

/-- The store after re-importing the very same file at time 60 (a later
run, hence fresh generator values). -/
def exReimportedStore : Store :=
  importFiles 60 exGenCidB exGenCol exGenEidB [exFileMath] exCompletedStore

def exReimportedEvent : CalendarEvent := exReimportedStore.events.headD exDummyEvent

/-- The hw.ics analogue of the same two-import scenario. -/
def exHwOnce : Store :=
  importFiles 50 exGenCidA exGenCol exGenEidA [exFileHw] { events := [], courses := [] }

def exHwCompleted : Store :=
  { exHwOnce with events := markEventCompleted exHwOnce.events "v1" }

/-- A stored event of course A as a prior file import leaves it. -/
def exEventA : CalendarEvent :=
  { id := "a1", title := "Essay", description := "", startDate := 100, endDate := 100,
    eventType := .other, courseId := "A", courseName := "Math", courseColor := "#111110",
    location := none, status := .upcoming, isAllDay := true, recurrence := none }

/-- Course A's stored record (file-imported, one event). -/
def exCourseRecA : Course :=
  { id := "A", name := "Math", color := "#111110", isActive := true,
    importedDate := 50, eventCount := 1, icsFileName := "math.ics" }

/-- A store holding course A and its single event. -/
def exStoreA : Store := { events := [exEventA], courses := [exCourseRecA] }

/-- A scraped batch for a different course B with one draft. -/
def exCourseB : ScrapedCourse := { id := "B", name := "Bio", eventCount := 1 }

def exDraftB : ScrapedEvent :=
  { title := "Lab", description := "", dueDate := 100, courseId := "B",
    courseName := "Bio", eventType := .assignment }

/-- Syncing the B batch over the store holding only course A's data. -/
def exSyncOverA : Store :=
  (processScrapedData 60 exSyncIdB exRand [exCourseB] [exDraftB] exStoreA).getD
    { events := [], courses := [] }

/-- The single event that sync leaves stored. -/
def exSyncEventB : CalendarEvent := exSyncOverA.events.headD exDummyEvent

/-- First sync of the B batch over an empty store. -/
def exSyncFirst : Store :=
  (processScrapedData 50 exSyncIdA exRand [exCourseB] [exDraftB]
    { events := [], courses := [] }).getD { events := [], courses := [] }

/-- A parseable three-entry document whose middle entry throws. -/
def exDocMixed : IcsDocument := ⟨some [some exEntryEssay, none, some exEntryHw]⟩

def exGenE (n : Nat) : String := "g" ++ toString n

/-! ## Theorems -/

/-- C7: for every endDate and now, `determineEventStatus` returns overdue
exactly when endDate is strictly before now and upcoming otherwise; an
event marked completed (Dexie update with status COMPLETED) has status
completed regardless of its dates; and at now = 2024-03-10T00:00:00Z the
instants one second before and one second after that midnight classify as
overdue and upcoming respectively. -/
theorem C7_status_classification :
    (∀ endDate now : Int, determineEventStatus endDate now = EventStatus.overdue ↔ endDate < now) ∧
    (∀ endDate now : Int, ¬ endDate < now → determineEventStatus endDate now = EventStatus.upcoming) ∧
    (∀ (evs : List CalendarEvent) (id2 : String) (e : CalendarEvent),
      e ∈ markEventCompleted evs id2 → e.id = id2 → e.status = EventStatus.completed) ∧
    determineEventStatus 1710028799000 1710028800000 = EventStatus.overdue ∧
    determineEventStatus 1710028801000 1710028800000 = EventStatus.upcoming := by
  refine ⟨?_, ?_, ?_, by decide, by decide⟩
  · intro endDate now
    unfold determineEventStatus
    by_cases h : endDate < now <;> simp [h]
  · intro endDate now h
    unfold determineEventStatus
    simp [h]
  · intro evs id2 e he hid
    unfold markEventCompleted at he
    obtain ⟨x, hx, hxe⟩ := List.mem_map.mp he
    by_cases hxid : x.id = id2
    · rw [if_pos hxid] at hxe
      rw [← hxe]
    · rw [if_neg hxid] at hxe
      rw [← hxe] at hid
      exact absurd hid hxid

/-- C7 witness: the classification applied at concrete inputs. -/
theorem C7_status_witness :
    determineEventStatus 5 3 = EventStatus.upcoming ∧
    ({ exEventA with status := EventStatus.completed } : CalendarEvent).status
      = EventStatus.completed := by
  constructor
  · exact C7_status_classification.2.1 5 3 (by decide)
  · exact C7_status_classification.2.2.1 [exEventA] "a1"
      ({ exEventA with status := EventStatus.completed }) (by decide) (by decide)

/-- C8 counterexample: the scraper's own type computation disagrees with
the parser's classifier on the title Midterm (empty description): the
parser classifies it exam, the scraper classifies it assignment, so the
two sources do NOT share one classification. -/
theorem C8_counterexample :
    detectEventType "Midterm" "" = EventType.exam ∧
    scrapeEventType "Midterm" = EventType.assignment := by
  exact ⟨by decide, by decide⟩

/-- C8 amended: only the parser's `detectEventType` implements the spec's
classifyType rule (priority order exam/test/midterm/final, quiz, project,
assignment/homework/hw, other, over the lower-cased concatenation of
title and description); the scrape path uses a different title-only rule
that never yields other, and the two disagree, e.g. on Midterm. -/
theorem C8_amended :
    (∀ title description : String,
      detectEventType title description = classifyType title description) ∧
    (∀ title : String, scrapeEventType title ≠ EventType.other) ∧
    scrapeEventType "Midterm" ≠ detectEventType "Midterm" "" := by
  refine ⟨fun t d => rfl, ?_, by decide⟩
  intro t
  simp only [scrapeEventType]
  split
  · decide
  · split
    · decide
    · split <;> decide

/-- C8 witness: the amended statement applied at concrete titles. -/
theorem C8_amended_witness :
    detectEventType "HW 1" "" = classifyType "HW 1" "" ∧
    scrapeEventType "Lecture" ≠ EventType.other :=
  ⟨C8_amended.1 "HW 1" "", C8_amended.2.1 "Lecture"⟩

/-- C10: toggleCourseFilter removes the id from the active list when it is
present, adds it when it is absent, and applying it twice yields a list
equal as a set to the original. -/
theorem C10_toggle_involution (active : List String) (c : String) :
    (c ∈ active → c ∉ toggleCourseFilter active c) ∧
    (c ∉ active → c ∈ toggleCourseFilter active c) ∧
    (∀ x, x ∈ toggleCourseFilter (toggleCourseFilter active c) c ↔ x ∈ active) := by
  by_cases h : c ∈ active
  · have h1 : toggleCourseFilter active c = active.filter (fun id2 => decide (id2 ≠ c)) := by
      unfold toggleCourseFilter
      rw [if_pos h]
    have hcf : c ∉ active.filter (fun id2 => decide (id2 ≠ c)) := by
      intro hmem
      have := (List.mem_filter.mp hmem).2
      simp at this
    have h2 : toggleCourseFilter (toggleCourseFilter active c) c
        = active.filter (fun id2 => decide (id2 ≠ c)) ++ [c] := by
      rw [h1]
      unfold toggleCourseFilter
      rw [if_neg hcf]
    refine ⟨fun _ => ?_, fun hc => absurd h hc, ?_⟩
    · rw [h1]; exact hcf
    · intro x
      rw [h2]
      constructor
      · intro hx
        rcases List.mem_append.mp hx with hx1 | hx2
        · exact (List.mem_filter.mp hx1).1
        · rw [List.mem_singleton] at hx2
          rw [hx2]
          exact h
      · intro hx
        by_cases hxc : x = c
        · rw [hxc]
          exact List.mem_append.mpr (Or.inr (List.mem_singleton.mpr rfl))
        · exact List.mem_append.mpr (Or.inl (List.mem_filter.mpr ⟨hx, by simp [hxc]⟩))
  · have h1 : toggleCourseFilter active c = active ++ [c] := by
      unfold toggleCourseFilter
      rw [if_neg h]
    have hc2 : c ∈ active ++ [c] := List.mem_append.mpr (Or.inr (List.mem_singleton.mpr rfl))
    have h2 : toggleCourseFilter (toggleCourseFilter active c) c
        = (active ++ [c]).filter (fun id2 => decide (id2 ≠ c)) := by
      rw [h1]
      unfold toggleCourseFilter
      rw [if_pos hc2]
    refine ⟨fun hc => absurd hc h, fun _ => ?_, ?_⟩
    · rw [h1]; exact hc2
    · intro x
      rw [h2]
      constructor
      · intro hx
        have hm := List.mem_filter.mp hx
        rcases List.mem_append.mp hm.1 with hx1 | hx2
        · exact hx1
        · rw [List.mem_singleton] at hx2
          have := hm.2
          simp [hx2] at this
      · intro hx
        refine List.mem_filter.mpr ⟨List.mem_append.mpr (Or.inl hx), ?_⟩
        have hxc : x ≠ c := fun he => h (he ▸ hx)
        simp [hxc]

/-- C10 witness: the toggle applied at a concrete active list. -/
theorem C10_toggle_witness :
    "b" ∉ toggleCourseFilter ["a", "b"] "b" ∧
    ("x" ∈ toggleCourseFilter (toggleCourseFilter ["a", "b"] "b") "b" ↔ "x" ∈ ["a", "b"]) :=
  ⟨(C10_toggle_involution ["a", "b"] "b").1 (by decide),
   (C10_toggle_involution ["a", "b"] "b").2.2 "x"⟩

/-- The entry loop produces one event per convertible entry and one error,
carrying the one-based ordinal, per throwing entry. -/
theorem parseEntries_shape (now : Int) (genId : Nat → String) (cid cn cc : String) :
    ∀ (entries : List (Option IcalEntry)) (i : Nat),
      (parseEntries now genId cid cn cc i entries).1.length = (entries.filterMap id).length ∧
      (parseEntries now genId cid cn cc i entries).2.map (fun er => er.line)
        = (nonePositions i entries).map (fun j => some (j + 1)) := by
  intro entries
  induction entries with
  | nil => exact fun i => ⟨rfl, rfl⟩
  | cons a rest ih =>
    intro i
    cases a with
    | none =>
      refine ⟨?_, ?_⟩
      · simpa using (ih (i + 1)).1
      · simp only [parseEntries, nonePositions, List.map_cons]
        rw [(ih (i + 1)).2]
    | some en =>
      refine ⟨?_, ?_⟩
      · simpa [parseEntries] using (ih (i + 1)).1
      · simpa [parseEntries, nonePositions] using (ih (i + 1)).2

/-- C6: the parser's result contract: an unparseable document yields
success false, exactly one document-level error (no line) and no events;
in a parseable document each throwing entry yields one error carrying its
one-based ordinal while every other entry is still converted; a parseable
empty document yields the warning, not an error; and success holds
exactly when at least one event was produced. -/
theorem C6_parser_result_contract (now : Int) (genId : Nat → String) (doc : IcsDocument)
    (cid cn cc fn : String) :
    (doc.parsed = none →
      (parseIcsFile now genId doc cid cn cc fn).success = false ∧
      (parseIcsFile now genId doc cid cn cc fn).errors.length = 1 ∧
      (parseIcsFile now genId doc cid cn cc fn).errors.map (fun er => er.line) = [none] ∧
      (parseIcsFile now genId doc cid cn cc fn).events = []) ∧
    (∀ entries, doc.parsed = some entries →
      (parseIcsFile now genId doc cid cn cc fn).events.length = (entries.filterMap id).length ∧
      (parseIcsFile now genId doc cid cn cc fn).errors.map (fun er => er.line)
        = (nonePositions 0 entries).map (fun j => some (j + 1)) ∧
      (entries = [] →
        (parseIcsFile now genId doc cid cn cc fn).warnings = ["No events found in ICS file"] ∧
        (parseIcsFile now genId doc cid cn cc fn).errors = []) ∧
      (entries ≠ [] → (parseIcsFile now genId doc cid cn cc fn).warnings = [])) ∧
    ((parseIcsFile now genId doc cid cn cc fn).success = true ↔
      0 < (parseIcsFile now genId doc cid cn cc fn).events.length) := by
  cases hdoc : doc.parsed with
  | none =>
    refine ⟨fun _ => ?_, fun entries he => ?_, ?_⟩
    · simp [parseIcsFile, hdoc]
    · cases he
    · simp [parseIcsFile, hdoc]
  | some vevents =>
    refine ⟨fun he => ?_, fun entries he => ?_, ?_⟩
    · cases he
    · injection he with he2
      subst he2
      refine ⟨?_, ?_, fun hnil => ?_, fun hnn => ?_⟩
      · simp only [parseIcsFile, hdoc]
        exact (parseEntries_shape now genId cid cn cc vevents 0).1
      · simp only [parseIcsFile, hdoc]
        exact (parseEntries_shape now genId cid cn cc vevents 0).2
      · constructor
        · simp [parseIcsFile, hdoc, hnil]
        · simp [parseIcsFile, hdoc, hnil, parseEntries]
      · have hlen : ¬ vevents.length = 0 := fun hl => hnn (List.length_eq_zero.mp hl)
        simp only [parseIcsFile, hdoc]
        rw [if_neg hlen]
    · simp only [parseIcsFile, hdoc]
      exact decide_eq_true_iff

/-- C6 witness: the contract applied to a concrete three-entry document
whose middle entry throws. -/
theorem C6_parser_witness :
    (parseIcsFile 50 exGenE exDocMixed "c1" "Math" "#111110" "m.ics").events.length = 2 ∧
    (parseIcsFile 50 exGenE exDocMixed "c1" "Math" "#111110" "m.ics").errors.map
      (fun er => er.line) = [some 2] ∧
    (parseIcsFile 50 exGenE exDocMixed "c1" "Math" "#111110" "m.ics").success = true := by
  have h := C6_parser_result_contract 50 exGenE exDocMixed "c1" "Math" "#111110" "m.ics"
  have h2 := h.2.1 [some exEntryEssay, none, some exEntryHw] rfl
  refine ⟨?_, ?_, ?_⟩
  · rw [h2.1]
    decide
  · rw [h2.2.1]
    decide
  · exact h.2.2.mpr (by rw [h2.1]; decide)

/-- Ids distribute over append. -/
theorem eventIds_append (a b : List CalendarEvent) :
    eventIds (a ++ b) = eventIds a ++ eventIds b := by
  unfold eventIds
  exact List.map_append _ _ _

/-- Replacing by key leaves the id column unchanged. -/
theorem putEvent_ids_replace (evs : List CalendarEvent) (e : CalendarEvent)
    (h : evs.any (fun a => a.id == e.id) = true) :
    eventIds (putEvent evs e) = eventIds evs := by
  unfold putEvent eventIds
  rw [if_pos h, List.map_map]
  apply List.map_congr_left
  intro a _
  by_cases hid : a.id = e.id <;> simp [hid]

/-- An id present before a put is present after it. -/
theorem putEvent_mem_ids (evs : List CalendarEvent) (e : CalendarEvent) (x : String)
    (hx : x ∈ eventIds evs) : x ∈ eventIds (putEvent evs e) := by
  by_cases h : evs.any (fun a => a.id == e.id) = true
  · rw [putEvent_ids_replace evs e h]
    exact hx
  · unfold putEvent
    rw [if_neg h, eventIds_append]
    exact List.mem_append.mpr (Or.inl hx)

/-- Every record after a put is an old record or the put one. -/
theorem putEvent_mem_or (evs : List CalendarEvent) (e : CalendarEvent) (y : CalendarEvent)
    (hy : y ∈ putEvent evs e) : y ∈ evs ∨ y = e := by
  unfold putEvent at hy
  by_cases h : evs.any (fun a => a.id == e.id) = true
  · rw [if_pos h] at hy
    obtain ⟨a, ha, hay⟩ := List.mem_map.mp hy
    by_cases hid : a.id = e.id
    · rw [if_pos hid] at hay
      exact Or.inr hay.symm
    · rw [if_neg hid] at hay
      exact Or.inl (hay ▸ ha)
  · rw [if_neg h] at hy
    rcases List.mem_append.mp hy with h1 | h2
    · exact Or.inl h1
    · exact Or.inr (List.mem_singleton.mp h2)

/-- A record carrying the put key after a put IS the put record. -/
theorem putEvent_eq_of_id (evs : List CalendarEvent) (e : CalendarEvent) (y : CalendarEvent)
    (hy : y ∈ putEvent evs e) (hid : y.id = e.id) : y = e := by
  unfold putEvent at hy
  by_cases h : evs.any (fun a => a.id == e.id) = true
  · rw [if_pos h] at hy
    obtain ⟨a, ha, hay⟩ := List.mem_map.mp hy
    by_cases hida : a.id = e.id
    · rw [if_pos hida] at hay
      exact hay.symm
    · rw [if_neg hida] at hay
      rw [← hay] at hid
      exact absurd hid hida
  · rw [if_neg h] at hy
    rcases List.mem_append.mp hy with h1 | h2
    · exact absurd (List.any_eq_true.mpr ⟨y, h1, by simp [hid]⟩) h
    · exact List.mem_singleton.mp h2

/-- bulkPut never loses an id. -/
theorem bulkPut_mem_ids (batch : List CalendarEvent) :
    ∀ (evs : List CalendarEvent) (x : String),
      x ∈ eventIds evs → x ∈ eventIds (bulkPutEvents evs batch) := by
  induction batch with
  | nil => exact fun evs x hx => hx
  | cons b rest ih =>
    intro evs x hx
    exact ih (putEvent evs b) x (putEvent_mem_ids evs b x hx)

/-- Every record after a bulkPut is an old record or a batch record. -/
theorem bulkPut_mem_or (batch : List CalendarEvent) :
    ∀ (evs : List CalendarEvent) (y : CalendarEvent),
      y ∈ bulkPutEvents evs batch → y ∈ evs ∨ y ∈ batch := by
  induction batch with
  | nil => exact fun evs y hy => Or.inl hy
  | cons b rest ih =>
    intro evs y hy
    rcases ih (putEvent evs b) y hy with h1 | h2
    · rcases putEvent_mem_or evs b y h1 with h3 | h4
      · exact Or.inl h3
      · exact Or.inr (h4 ▸ List.mem_cons_self b rest)
    · exact Or.inr (List.mem_cons_of_mem b h2)

/-- A record whose id comes from the batch is, after the bulkPut, one of
the batch records: the old record under that id has been overwritten. -/
theorem bulkPut_mem_batch_of_id (batch : List CalendarEvent) :
    ∀ (evs : List CalendarEvent) (y : CalendarEvent),
      y ∈ bulkPutEvents evs batch → y.id ∈ eventIds batch → y ∈ batch := by
  induction batch with
  | nil =>
    intro evs y _ hid
    cases hid
  | cons b rest ih =>
    intro evs y hy hid
    by_cases hr : y.id ∈ eventIds rest
    · exact List.mem_cons_of_mem b (ih (putEvent evs b) y hy hr)
    · have hb : y.id = b.id := by
        unfold eventIds at hid
        rw [List.map_cons] at hid
        rcases List.mem_cons.mp hid with h2 | h3
        · exact h2
        · exact absurd h3 hr
      rcases bulkPut_mem_or rest (putEvent evs b) y hy with h1 | h2
      · exact (putEvent_eq_of_id evs b y h1 hb) ▸ List.mem_cons_self b rest
      · exact List.mem_cons_of_mem b h2

/-- When every batch id is already stored, a bulkPut preserves the table
length: every put is an overwrite. -/
theorem bulkPut_length_of_sub (batch : List CalendarEvent) :
    ∀ (evs : List CalendarEvent),
      (∀ b ∈ batch, b.id ∈ eventIds evs) →
      (bulkPutEvents evs batch).length = evs.length := by
  induction batch with
  | nil => exact fun evs _ => rfl
  | cons b rest ih =>
    intro evs hsub
    have hb : b.id ∈ eventIds evs := hsub b (List.mem_cons_self b rest)
    have hany : evs.any (fun a => a.id == b.id) = true := by
      unfold eventIds at hb
      obtain ⟨a, ha, hae⟩ := List.mem_map.mp hb
      exact List.any_eq_true.mpr ⟨a, ha, by simp [hae]⟩
    have hids : eventIds (putEvent evs b) = eventIds evs := putEvent_ids_replace evs b hany
    have hlen : (putEvent evs b).length = evs.length := by
      unfold putEvent
      rw [if_pos hany]
      exact List.length_map _ _
    calc (bulkPutEvents (putEvent evs b) rest).length
        = (putEvent evs b).length :=
          ih (putEvent evs b) (fun d hd => hids ▸ hsub d (List.mem_cons_of_mem b hd))
      _ = evs.length := hlen

/-- Every event the entry loop produces carries the import's course id
and a freshly computed time-based status, never completed. -/
theorem parseEntries_fields (now : Int) (genId : Nat → String) (cid cn cc : String) :
    ∀ (entries : List (Option IcalEntry)) (i : Nat),
      ∀ e ∈ (parseEntries now genId cid cn cc i entries).1,
        e.courseId = cid ∧ e.status ≠ EventStatus.completed := by
  intro entries
  induction entries with
  | nil =>
    intro i e he
    cases he
  | cons a rest ih =>
    intro i e he
    cases a with
    | none =>
      exact ih (i + 1) e (by simpa [parseEntries] using he)
    | some en =>
      simp only [parseEntries] at he
      rcases List.mem_cons.mp he with h1 | h2
      · rw [h1]
        refine ⟨rfl, ?_⟩
        show determineEventStatus en.endDate now ≠ EventStatus.completed
        unfold determineEventStatus
        by_cases h : en.endDate < now <;> simp [h]
      · exact ih (i + 1) e h2

/-- The same for the full parser result. -/
theorem parseIcsFile_fields (now : Int) (genId : Nat → String) (doc : IcsDocument)
    (cid cn cc fn : String) :
    ∀ e ∈ (parseIcsFile now genId doc cid cn cc fn).events,
      e.courseId = cid ∧ e.status ≠ EventStatus.completed := by
  intro e he
  cases hdoc : doc.parsed with
  | none =>
    simp only [parseIcsFile, hdoc] at he
    cases he
  | some vevents =>
    simp only [parseIcsFile, hdoc] at he
    exact parseEntries_fields now genId cid cn cc vevents 0 e he

/-- A successful per-file parse carries the file's generated course id on
itself and on every one of its events, and no completed status. -/
theorem importParseOne_events (now : Int) (genCid genCol : Nat → String)
    (genEid : Nat → Nat → String) (i : Nat) (f : ImportFile) (p : ParsedImport)
    (hp : importParseOne now genCid genCol genEid i f = some p) :
    p.courseId = genCid i ∧
    ∀ e ∈ p.events, e.courseId = genCid i ∧ e.status ≠ EventStatus.completed := by
  unfold importParseOne at hp
  by_cases hs : (parseIcsFile now (genEid i) f.doc (genCid i) f.extractedName (genCol i) f.name).success = true
  · rw [if_pos hs] at hp
    injection hp with hp2
    subst hp2
    exact ⟨rfl, fun e he =>
      parseIcsFile_fields now (genEid i) f.doc (genCid i) f.extractedName (genCol i) f.name e he⟩
  · rw [if_neg hs] at hp
    cases hp

/-- Membership in the collected parse results comes from one file's
successful parse. -/
theorem importParsedList_mem (now : Int) (genCid genCol : Nat → String)
    (genEid : Nat → Nat → String) :
    ∀ (files : List ImportFile) (i : Nat) (p : ParsedImport),
      p ∈ importParsedList now genCid genCol genEid i files →
      ∃ j f, importParseOne now genCid genCol genEid j f = some p := by
  intro files
  induction files with
  | nil =>
    intro i p hp
    cases hp
  | cons f rest ih =>
    intro i p hp
    simp only [importParsedList] at hp
    revert hp
    cases hone : importParseOne now genCid genCol genEid i f with
    | some q =>
      intro hp
      rcases List.mem_cons.mp hp with h1 | h2
      · exact ⟨i, f, by rw [hone, h1]⟩
      · exact ih (i + 1) p h2
    | none =>
      intro hp
      exact ih (i + 1) p hp

/-- No import draft ever carries status completed. -/
theorem importDrafts_status (now : Int) (genCid genCol : Nat → String)
    (genEid : Nat → Nat → String) (files : List ImportFile) :
    ∀ d ∈ importDrafts now genCid genCol genEid files, d.status ≠ EventStatus.completed := by
  intro d hd
  unfold importDrafts at hd
  obtain ⟨p, hp, hdp⟩ := List.mem_flatMap.mp hd
  obtain ⟨j, f, hone⟩ := importParsedList_mem now genCid genCol genEid files 0 p hp
  exact ((importParseOne_events now genCid genCol genEid j f p hone).2 d hdp).2

/-- For a single-file import, every draft carries the one generated
course id of that run and a non-completed status. -/
theorem importDrafts_single (now : Int) (genCid genCol : Nat → String)
    (genEid : Nat → Nat → String) (f : ImportFile) :
    ∀ d ∈ importDrafts now genCid genCol genEid [f],
      d.courseId = genCid 0 ∧ d.status ≠ EventStatus.completed := by
  intro d hd
  unfold importDrafts importParsedList at hd
  revert hd
  cases hone : importParseOne now genCid genCol genEid 0 f with
  | none =>
    intro hd
    simp [importParsedList] at hd
  | some p =>
    intro hd
    have hd2 : d ∈ p.events := by
      simpa [importParsedList] using hd
    exact (importParseOne_events now genCid genCol genEid 0 f p hone).2 d hd2

/-- C5: a file-import reconciliation never deletes a stored event: on any
prior store and any selection of files, every event id stored before
the import is still stored after it (both when the import writes and when it
skips or aborts the write phase). -/
theorem C5_import_never_deletes (now : Int) (genCid genCol : Nat → String)
    (genEid : Nat → Nat → String) (files : List ImportFile) (st : Store) :
    ∀ e ∈ st.events, e.id ∈ eventIds (importFiles now genCid genCol genEid files st).events := by
  intro e he
  have hx : e.id ∈ eventIds st.events := List.mem_map_of_mem _ he
  unfold importFiles importApply
  by_cases h0 : importParsedList now genCid genCol genEid 0 files = []
  · rw [if_pos h0]
    exact hx
  · rw [if_neg h0]
    by_cases h1 : (coursesAddSeq st.courses
        ((importParsedList now genCid genCol genEid 0 files).map (mkImportedCourse now))).2 = true
    · rw [if_pos h1]
      exact bulkPut_mem_ids _ st.events e.id hx
    · rw [if_neg h1]
      exact hx

/-- C5 witness: the prior event a1 of course A survives an unrelated
file import. -/
theorem C5_import_witness :
    exEventA.id ∈ eventIds (importFiles 50 exGenCidA exGenCol exGenEidA [exFileMath] exStoreA).events :=
  C5_import_never_deletes 50 exGenCidA exGenCol exGenEidA [exFileMath] exStoreA exEventA
    (by decide)

/-- C1 counterexample: the event imported from math.ics and then marked
completed by the user is stored with status completed, yet re-importing
the very same file overwrites its status with the recomputed time-based
value: after the re-import the status is upcoming, not completed. -/
theorem C1_counterexample :
    exCompletedStore.events.map (fun e => (e.id, e.status))
      = [("u1", EventStatus.completed)] ∧
    exReimportedStore.events.map (fun e => (e.id, e.status))
      = [("u1", EventStatus.upcoming)] :=
  ⟨by decide, by decide⟩

/-- C1 amended: completed is NOT sticky across reconciliation: after a
file import whose course adds all succeed, every stored event whose id
matches one of the import's drafts carries the freshly computed
time-based status, so a previously completed event reproduced by the
document loses its completed status. -/
theorem C1_amended (now : Int) (genCid genCol : Nat → String) (genEid : Nat → Nat → String)
    (files : List ImportFile) (st : Store)
    (hok : (coursesAddSeq st.courses
      ((importParsedList now genCid genCol genEid 0 files).map (mkImportedCourse now))).2 = true) :
    ∀ e ∈ (importFiles now genCid genCol genEid files st).events,
      e.id ∈ eventIds (importDrafts now genCid genCol genEid files) →
      e.status ≠ EventStatus.completed := by
  intro e he hid
  unfold importFiles importApply at he
  by_cases h0 : importParsedList now genCid genCol genEid 0 files = []
  · exfalso
    unfold importDrafts at hid
    rw [h0] at hid
    simp [eventIds] at hid
  · rw [if_neg h0, if_pos hok] at he
    have hb := bulkPut_mem_batch_of_id _ st.events e he hid
    exact importDrafts_status now genCid genCol genEid files e hb

/-- C1 witness: the amended statement applied to the concrete two-import
scenario: the stored event after the re-import is not completed. -/
theorem C1_amended_witness : exReimportedEvent.status ≠ EventStatus.completed :=
  C1_amended 60 exGenCidB exGenCol exGenEidB [exFileMath] exCompletedStore (by decide)
    exReimportedEvent (by decide) (by decide)

/-- C4 counterexample: re-importing hw.ics leaves the event count at one,
but the stored event is NOT field-identical to its value after the
first import: its courseId is the second run's freshly generated course id
(cB0 instead of cA0), and the completed status set between the imports is
overwritten with upcoming. -/
theorem C4_counterexample :
    exHwCompleted.events.map (fun e => (e.id, e.courseId, e.status))
      = [("v1", "cA0", EventStatus.completed)] ∧
    (importFiles 60 exGenCidB exGenCol exGenEidB [exFileHw] exHwCompleted).events.map
      (fun e => (e.id, e.courseId, e.status))
      = [("v1", "cB0", EventStatus.upcoming)] :=
  ⟨by decide, by decide⟩

/-- C4 amended: re-importing a single document whose drafts all carry
already-stored ids (same UIDs) keeps the stored event count unchanged,
but each overwritten event takes the new run's freshly generated courseId
and a recomputed, never completed status — field values are not
preserved and completed does not survive. -/
theorem C4_amended (now : Int) (genCid genCol : Nat → String) (genEid : Nat → Nat → String)
    (f : ImportFile) (st : Store)
    (hok : (coursesAddSeq st.courses
      ((importParsedList now genCid genCol genEid 0 [f]).map (mkImportedCourse now))).2 = true)
    (hsub : ∀ d ∈ importDrafts now genCid genCol genEid [f], d.id ∈ eventIds st.events) :
    (importFiles now genCid genCol genEid [f] st).events.length = st.events.length ∧
    ∀ e ∈ (importFiles now genCid genCol genEid [f] st).events,
      e.id ∈ eventIds (importDrafts now genCid genCol genEid [f]) →
      e.courseId = genCid 0 ∧ e.status ≠ EventStatus.completed := by
  constructor
  · unfold importFiles importApply
    by_cases h0 : importParsedList now genCid genCol genEid 0 [f] = []
    · rw [if_pos h0]
    · rw [if_neg h0, if_pos hok]
      exact bulkPut_length_of_sub _ st.events hsub
  · intro e he hid
    unfold importFiles importApply at he
    by_cases h0 : importParsedList now genCid genCol genEid 0 [f] = []
    · exfalso
      unfold importDrafts at hid
      rw [h0] at hid
      simp [eventIds] at hid
    · rw [if_neg h0, if_pos hok] at he
      exact importDrafts_single now genCid genCol genEid f e
        (bulkPut_mem_batch_of_id _ st.events e he hid)

/-- C4 witness: the amended statement applied to the concrete hw.ics
re-import: the event count is unchanged by the second import. -/
theorem C4_amended_witness :
    (importFiles 60 exGenCidB exGenCol exGenEidB [exFileHw] exHwCompleted).events.length
      = exHwCompleted.events.length :=
  (C4_amended 60 exGenCidB exGenCol exGenEidB exFileHw exHwCompleted (by decide) (by decide)).1

/-- String concatenation concatenates the character data. -/
theorem strDataAppend (a b : String) : (a ++ b).data = a.data ++ b.data := rfl

/-- getLast? looks into the right part of a concatenation when that part
is nonempty. -/
theorem getLastOfAppend {α : Type} (l1 l2 : List α) (h : l2 ≠ []) :
    (l1 ++ l2).getLast? = l2.getLast? :=
  List.getLast?_append_of_ne_nil l1 h

/-- The key generateEventKey computes for a STORED event (ending in the
text undefined, since the record has no dueDate field) is never equal to
the key computed for a scraped draft (ending in the Z of an ISO string):
the two keys end in different characters. -/
theorem storedKey_ne_draftKey (e : CalendarEvent) (d : ScrapedEvent) :
    generateEventKeyStored e ≠ generateEventKeyDraft d := by
  intro h
  have hs : (generateEventKeyStored e).data.getLast? = some 'd' := by
    unfold generateEventKeyStored
    rw [strDataAppend, getLastOfAppend _ _ (by decide)]
    decide
  have hz : (generateEventKeyDraft d).data.getLast? = some 'Z' := by
    unfold generateEventKeyDraft dateToIso
    have hne : (toString d.dueDate ++ "Z").data ≠ [] := by
      rw [strDataAppend]
      intro hc
      exact absurd (List.append_eq_nil.mp hc).2 (by decide)
    rw [strDataAppend, getLastOfAppend _ _ hne, strDataAppend,
      getLastOfAppend _ _ (by decide)]
    decide
  rw [h] at hs
  rw [hs] at hz
  exact absurd (Option.some.inj hz) (by decide)

/-- Looking a draft key up in the map built over the stored events always
misses: this is the dead match arm of the sync. -/
theorem storedMap_lookup_draft (evs : List CalendarEvent) (d : ScrapedEvent) :
    mapOfList (storedKeyList evs) (generateEventKeyDraft d) = none := by
  have hfind : (storedKeyList evs).reverse.find?
      (fun p => p.1 == generateEventKeyDraft d) = none := by
    apply List.find?_eq_none.mpr
    intro p hp
    rw [List.mem_reverse] at hp
    unfold storedKeyList at hp
    obtain ⟨e, he, hpe⟩ := List.mem_map.mp hp
    rw [← hpe]
    intro hbe
    exact storedKey_ne_draftKey e d (eq_of_beq hbe)
  unfold mapOfList
  rw [hfind]
  rfl

/-- When every draft key misses the map, the ids the event loop marks as
seen are all freshly added ones: an id stored before the loop and not
seen initially is never seen at the end. -/
theorem processEventsLoop_not_seen (now : Int) (genId : Nat → String) (rand : Nat → Nat)
    (emap : String → Option String) :
    ∀ (drafts : List ScrapedEvent) (evs : List CalendarEvent) (seen : List String) (n : Nat)
      (r : List CalendarEvent × List String),
      (∀ d ∈ drafts, emap (generateEventKeyDraft d) = none) →
      processEventsLoop now genId rand emap evs seen n drafts = some r →
      ∀ x : String, x ∈ eventIds evs → x ∉ seen → x ∉ r.2 := by
  intro drafts
  induction drafts with
  | nil =>
    intro evs seen n r _ hrun x _ hns
    simp only [processEventsLoop] at hrun
    injection hrun with h1
    rw [← h1]
    exact hns
  | cons d rest ih =>
    intro evs seen n r hall hrun x hx hns
    have hd := hall d (List.mem_cons_self d rest)
    simp only [processEventsLoop, hd] at hrun
    revert hrun
    cases hadd : eventAdd evs (mkSyncEvent now (genId n) d
        (colorPalette.getD (rand n % colorPalette.length) "")) with
    | none =>
      intro hrun
      cases hrun
    | some evs2 =>
      intro hrun
      unfold eventAdd at hadd
      by_cases hc : evs.any (fun a => a.id == (mkSyncEvent now (genId n) d
          (colorPalette.getD (rand n % colorPalette.length) "")).id) = true
      · rw [if_pos hc] at hadd
        cases hadd
      · rw [if_neg hc] at hadd
        injection hadd with hadd2
        refine ih evs2 (seen ++ [genId n]) (n + 1) r
          (fun d2 hd2 => hall d2 (List.mem_cons_of_mem d hd2)) hrun x ?_ ?_
        · rw [← hadd2, eventIds_append]
          exact List.mem_append.mpr (Or.inl hx)
        · intro hxs
          rcases List.mem_append.mp hxs with h1 | h2
          · exact hns h1
          · rw [List.mem_singleton] at h2
            unfold eventIds at hx
            obtain ⟨a, ha, hae⟩ := List.mem_map.mp hx
            exact hc (List.any_eq_true.mpr ⟨a, ha, by simp [mkSyncEvent, hae, h2]⟩)

/-- In a list whose keys are distinct, two entries with the same key are
the same entry. -/
theorem pair_eq_of_nodup_keys :
    ∀ (l : List (String × String)),
      (l.map (fun p => p.1)).Nodup →
      ∀ p ∈ l, ∀ q ∈ l, p.1 = q.1 → p = q := by
  intro l
  induction l with
  | nil =>
    intro _ p hp
    cases hp
  | cons a t ih =>
    intro hnd p hp q hq hk
    rw [List.map_cons] at hnd
    have hnd2 := List.nodup_cons.mp hnd
    rcases List.mem_cons.mp hp with hp1 | hp2 <;> rcases List.mem_cons.mp hq with hq1 | hq2
    · rw [hp1, hq1]
    · exfalso
      apply hnd2.1
      subst hp1
      rw [hk]
      exact List.mem_map_of_mem _ hq2
    · exfalso
      apply hnd2.1
      subst hq1
      rw [← hk]
      exact List.mem_map_of_mem _ hp2
    · exact ih hnd2.2 p hp2 q hq2 hk

/-- Under distinct keys, every entry's value appears among the map's
values. -/
theorem mem_mapValues_of_nodup (l : List (String × String))
    (h : (l.map (fun p => p.1)).Nodup) :
    ∀ p ∈ l, p.2 ∈ mapValues l := by
  intro p hp
  unfold mapValues
  apply List.mem_filterMap.mpr
  refine ⟨p.1, List.mem_dedup.mpr (List.mem_map_of_mem _ hp), ?_⟩
  unfold mapOfList
  cases hf : l.reverse.find? (fun q => q.1 == p.1) with
  | none =>
    exfalso
    have h2 := List.find?_eq_none.mp hf p (List.mem_reverse.mpr hp)
    simp at h2
  | some q =>
    have hq1 : q.1 = p.1 := by
      have hb := List.find?_some hf
      simpa using hb
    have hqm : q ∈ l := List.mem_reverse.mp (List.mem_of_find?_eq_some hf)
    have heq : q = p := pair_eq_of_nodup_keys l h q hqm p hp hq1
    rw [heq]
    rfl

/-- C3 counterexample: a store holding only the file-imported event a1 of
course A, synced with a batch that fetched a different course B, loses
a1: stale-removal is not scoped to the fetched course. -/
theorem C3_counterexample :
    exStoreA.events.map (fun e => (e.id, e.courseId)) = [("a1", "A")] ∧
    exCourseRecA.icsFileName = "math.ics" ∧
    (processScrapedData 60 exSyncIdB exRand [exCourseB] [exDraftB] exStoreA).map
      (fun st => st.events.filter (fun e => e.courseId == "A")) = some [] :=
  ⟨by decide, by decide, by decide⟩

/-- C3 amended: deletion during a scrape sync is global, not per course:
whenever the stored events' keys are distinct, a completed sync run
removes EVERY previously stored event id — whatever its course, whether
that course was in the batch, fetched, failed or file-imported — because
no draft key can match a stored key (the stored key ends in the text
undefined) and every unmatched map id is deleted. -/
theorem C3_amended (now : Int) (genId : Nat → String) (rand : Nat → Nat)
    (scs : List ScrapedCourse) (drafts : List ScrapedEvent) (st st2 : Store)
    (hkeys : (st.events.map generateEventKeyStored).Nodup)
    (hrun : processScrapedData now genId rand scs drafts st = some st2) :
    ∀ e ∈ st.events, ∀ x ∈ st2.events, x.id ≠ e.id := by
  unfold processScrapedData at hrun
  revert hrun
  cases hc : processCoursesLoop now (st.courses.map (fun c => c.id)) st.courses 0 scs with
  | none =>
    intro hrun
    cases hrun
  | some courses2 =>
    cases hev : processEventsLoop now genId rand (mapOfList (storedKeyList st.events))
        st.events [] 0 drafts with
    | none =>
      intro hrun
      cases hrun
    | some r =>
      intro hrun
      injection hrun with hst2
      intro e he x hx hxe
      rw [← hst2] at hx
      unfold scrapeApplyDelete eventsBulkDelete at hx
      have hx2 := List.mem_filter.mp hx
      have hnotdel : x.id ∉ (mapValues (storedKeyList st.events)).filter
          (fun id2 => decide (id2 ∉ r.2)) :=
        of_decide_eq_true hx2.2
      apply hnotdel
      rw [hxe]
      apply List.mem_filter.mpr
      constructor
      · have hkeys2 : ((storedKeyList st.events).map (fun p => p.1)).Nodup := by
          unfold storedKeyList
          rw [List.map_map]
          exact hkeys
        have hmem : (generateEventKeyStored e, e.id) ∈ storedKeyList st.events := by
          unfold storedKeyList
          exact List.mem_map_of_mem _ he
        exact mem_mapValues_of_nodup (storedKeyList st.events) hkeys2 _ hmem
      · have hnot : e.id ∉ r.2 := by
          refine processEventsLoop_not_seen now genId rand (mapOfList (storedKeyList st.events))
            drafts st.events [] 0 r ?_ hev e.id (List.mem_map_of_mem _ he) (by simp)
          intro d _
          exact storedMap_lookup_draft st.events d
        simpa using hnot

/-- C3 witness: the amended statement applied to the concrete scenario:
the one event left after the B sync is not course A's prior event. -/
theorem C3_amended_witness : exSyncEventB.id ≠ exEventA.id :=
  C3_amended 60 exSyncIdB exRand [exCourseB] [exDraftB] exStoreA exSyncOverA
    (by decide) (by decide) exEventA (by decide) exSyncEventB (by decide)

/-- Courses whose id is not in the sync batch are left untouched by the
course loop. -/
theorem processCoursesLoop_untouched (now : Int) (existingIds : List String) :
    ∀ (scs : List ScrapedCourse) (cs : List Course) (i : Nat) (cs2 : List Course),
      processCoursesLoop now existingIds cs i scs = some cs2 →
      ∀ c ∈ cs, (∀ sc ∈ scs, sc.id ≠ c.id) → c ∈ cs2 := by
  intro scs
  induction scs with
  | nil =>
    intro cs i cs2 hrun c hc _
    simp only [processCoursesLoop] at hrun
    injection hrun with h1
    exact h1 ▸ hc
  | cons sc rest ih =>
    intro cs i cs2 hrun c hc hne
    have hne1 : sc.id ≠ c.id := hne sc (List.mem_cons_self sc rest)
    simp only [processCoursesLoop] at hrun
    revert hrun
    by_cases hex : existingIds.any (fun x => x == sc.id) = true
    · rw [if_pos hex]
      intro hrun
      refine ih (courseUpdate cs sc.id sc.eventCount) (i + 1) cs2 hrun c ?_
        (fun s hs => hne s (List.mem_cons_of_mem sc hs))
      unfold courseUpdate
      have hcc : ¬ c.id = sc.id := fun hh => hne1 hh.symm
      have hfc : (fun x : Course =>
          if x.id = sc.id then { x with eventCount := sc.eventCount } else x) c = c := by
        dsimp only
        rw [if_neg hcc]
      exact hfc ▸ List.mem_map_of_mem _ hc
    · rw [if_neg hex]
      cases hadd : courseAdd cs (mkSyncCourse now i sc) with
      | none =>
        intro hrun
        cases hrun
      | some cs3 =>
        intro hrun
        refine ih cs3 (i + 1) cs2 hrun c ?_ (fun s hs => hne s (List.mem_cons_of_mem sc hs))
        unfold courseAdd at hadd
        by_cases hany : cs.any (fun x => x.id == (mkSyncCourse now i sc).id) = true
        · rw [if_pos hany] at hadd
          cases hadd
        · rw [if_neg hany] at hadd
          injection hadd with hadd2
          have hmem : c ∈ cs ++ [mkSyncCourse now i sc] := List.mem_append.mpr (Or.inl hc)
          rw [hadd2] at hmem
          exact hmem

/-- C9 amended: eventCount is only written for courses of the sync batch;
a stored Course outside the batch keeps its whole record — including its
eventCount — unchanged across the sync, even though the sync may delete
that course's events, so eventCount is not re-derived from the stored
events. -/
theorem C9_amended (now : Int) (genId : Nat → String) (rand : Nat → Nat)
    (scs : List ScrapedCourse) (drafts : List ScrapedEvent) (st st2 : Store)
    (hrun : processScrapedData now genId rand scs drafts st = some st2) :
    ∀ c ∈ st.courses, (∀ sc ∈ scs, sc.id ≠ c.id) → c ∈ st2.courses := by
  unfold processScrapedData at hrun
  revert hrun
  cases hc : processCoursesLoop now (st.courses.map (fun c => c.id)) st.courses 0 scs with
  | none =>
    intro hrun
    cases hrun
  | some courses2 =>
    cases hev : processEventsLoop now genId rand (mapOfList (storedKeyList st.events))
        st.events [] 0 drafts with
    | none =>
      intro hrun
      cases hrun
    | some r =>
      intro hrun
      injection hrun with hst2
      intro c hcm hne
      have hres := processCoursesLoop_untouched now (st.courses.map (fun c => c.id))
        scs st.courses 0 courses2 hc c hcm hne
      rw [← hst2]
      exact hres

/-- C9 counterexample: after syncing the B batch over the store holding
course A and its one event, course A's stored eventCount is still 1 while
zero stored events reference course A: the invariant fails for courses
the reconciliation did not touch. -/
theorem C9_counterexample :
    (processScrapedData 60 exSyncIdB exRand [exCourseB] [exDraftB] exStoreA).map
      (fun st => (st.courses.map (fun c => (c.id, c.eventCount)),
        (st.events.filter (fun e => e.courseId == "A")).length))
      = some ([("A", 1), ("B", 1)], 0) := by decide

/-- C9 witness: course A's record survives the B sync unchanged. -/
theorem C9_amended_witness : exCourseRecA ∈ exSyncOverA.courses :=
  C9_amended 60 exSyncIdB exRand [exCourseB] [exDraftB] exStoreA exSyncOverA (by decide)
    exCourseRecA (by decide) (by decide)

/-- C2: evaluating the sync twice on the same one-draft batch: after the
first run the draft is stored under the generated id sA0; re-running the
very same batch deletes that event and stores a fresh one under sB0 —
the stored count is unchanged but the id is not preserved, because the
key computed for the stored event ends in the text undefined (the record
has no dueDate field) and can never match the draft's key, so the
update-in-place arm of the loop is dead code. -/
theorem C2_code_bug_eval :
    eventIds exSyncFirst.events = ["sA0"] ∧
    (processScrapedData 60 exSyncIdB exRand [exCourseB] [exDraftB] exSyncFirst).map
      (fun st => eventIds st.events) = some ["sB0"] :=
  ⟨by decide, by decide⟩

end SchoologyCal
